import Mathlib

/-!
Shallow embedding of the chaos-middleware package.

The repository holds two versions of the middleware factory `chaosMiddleware`:
the richer one in `src/unnamed/part_001` (error config, method filter,
activation keyword) and the earlier one in `src/src/index.ts` (latency and
errorRate only).  Both return an async handler `(req, res, next) => ...`.

We embed each handler as a pure function producing the list of observable
calls it performs (`res.status`, `res.json`, `res.end`, the `delay`, and
`next`), in order.  JavaScript numbers are modelled as rationals, and each
call of `Math.random()` reads the next value of an explicit sample stream
`rands : Nat → ℚ` (index 0 for the error draw, index 1 for the latency draw,
matching the order the source draws them).  `process.env.NODE_ENV` is the
`nodeEnv : Option String` argument.  JavaScript truthiness is spelled out at
each use site: a string is truthy iff non-empty, a number is truthy iff
non-zero (NaN is not modelled), an array or object is always truthy,
`undefined` (here `Option.none`) is falsy.
-/

/-- One observable call made by the handler. -/
inductive Event where
  | statusCall (code : ℚ)
  | jsonCall (body : List (String × String))
  | endCall
  | delayCall (ms : ℚ)
  | nextCall
  deriving DecidableEq, Repr

/-- `latency?: number | [number, number]` from the `ChaosOptions` interface. -/
inductive Latency where
  | fixed (ms : ℚ)
  | range (min max : ℚ)
  deriving DecidableEq, Repr

/-- `ChaosError` from `src/unnamed/part_001`: `status: number` and a body
`Record<string, any>` that the handler checks for truthiness at runtime
(`if(body)`), hence an `Option` here; the record is modelled as an
association list. -/
structure ChaosError where
  status : ℚ
  body : Option (List (String × String))
  deriving DecidableEq, Repr

/-- `ChaosOptions` from `src/unnamed/part_001`. -/
structure ChaosOptions where
  latency : Option Latency := none
  errorRate : Option ℚ := none
  error : Option ChaosError := none
  methods : Option (List String) := none
  activationKeyword : Option String := none
  deriving DecidableEq, Repr

/-- `GenericRequest` from `src/unnamed/part_001`: `method?: string` and
`query?: Record<string, any>`, the query modelled as an association list of
string values. -/
structure GenericRequest where
  method : Option String := none
  query : Option (List (String × String)) := none
  deriving DecidableEq, Repr

/-- `req.query[k]`: lookup of a key in the query record. -/
def queryLookup (q : List (String × String)) (k : String) : Option String :=
  (q.find? fun p => p.1 == k).map Prod.snd

/-- Lines 74-79 of `src/unnamed/part_001`: the activation gate sends the
request straight to `next()` iff `options.activationKeyword` is truthy
(a non-empty string) and the query is absent or does not map the keyword to
the string "true". -/
def activationBlocked (options : ChaosOptions) (req : GenericRequest) : Bool :=
  match options.activationKeyword with
  | none => false
  | some kw =>
    kw != "" &&
      (match req.query with
       | none => true
       | some q => queryLookup q kw != some "true")

/-- JavaScript `toUpperCase()` on the ASCII method names the source deals
with: the character-wise uppercase map. -/
def toUpperCase (s : String) : String :=
  String.mk (s.data.map Char.toUpper)

/-- Lines 82-88 of `src/unnamed/part_001`: the method gate sends the request
straight to `next()` iff `options.methods` is a non-empty array and
`req.method?.toUpperCase()` is falsy (absent, or the empty string) or not
contained in the uppercased allowed list. -/
def methodBlocked (options : ChaosOptions) (req : GenericRequest) : Bool :=
  match options.methods with
  | none => false
  | some ms =>
    decide (0 < ms.length) &&
      (match req.method with
       | none => true
       | some m =>
         let reqMethod := toUpperCase m
         let allowedMethods := ms.map toUpperCase
         reqMethod == "" || !(allowedMethods.contains reqMethod))

/-- `customError?.status || 500` (line 93): status 0 is falsy, so it falls
back to 500, as does an absent error config. -/
def chaosStatus (options : ChaosOptions) : ℚ :=
  match options.error with
  | none => 500
  | some e => if e.status = 0 then 500 else e.status

/-- `customError?.body` (line 94). -/
def chaosBody (options : ChaosOptions) : Option (List (String × String)) :=
  match options.error with
  | none => none
  | some e => e.body

/-- The handler returned by `chaosMiddleware` in `src/unnamed/part_001`
(lines 69-119), as the ordered list of observable calls it makes. -/
def chaosMiddleware (options : ChaosOptions) (nodeEnv : Option String)
    (req : GenericRequest) (rands : ℕ → ℚ) : List Event :=
  if nodeEnv = some "production" then [Event.nextCall]
  else if activationBlocked options req then [Event.nextCall]
  else if methodBlocked options req then [Event.nextCall]
  else if rands 0 < options.errorRate.getD 0 then
    Event.statusCall (chaosStatus options) ::
      (match chaosBody options with
       | some b => [Event.jsonCall b]
       | none => [Event.endCall])
  else
    match options.latency with
    | none => [Event.nextCall]
    | some (Latency.fixed ms) =>
      if ms = 0 then [Event.nextCall]
      else [Event.delayCall ms, Event.nextCall]
    | some (Latency.range mn mx) =>
      [Event.delayCall ((⌊rands 1 * (mx - mn + 1) + mn⌋ : ℤ) : ℚ), Event.nextCall]

namespace IndexTs

/-- `ChaosOptions` from `src/src/index.ts` (latency and errorRate only). -/
structure ChaosOptions where
  latency : Option Latency := none
  errorRate : Option ℚ := none
  deriving DecidableEq, Repr

/-- The handler returned by `chaosMiddleware` in `src/src/index.ts`
(lines 38-64).  Its `GenericRequest` is the empty object type, so the
request argument is `Unit`. -/
def chaosMiddleware (options : ChaosOptions) (nodeEnv : Option String)
    (_req : Unit) (rands : ℕ → ℚ) : List Event :=
  if nodeEnv = some "production" then [Event.nextCall]
  else if rands 0 < options.errorRate.getD 0 then
    [Event.statusCall 500, Event.endCall]
  else
    match options.latency with
    | none => [Event.nextCall]
    | some (Latency.fixed ms) =>
      if ms = 0 then [Event.nextCall]
      else [Event.delayCall ms, Event.nextCall]
    | some (Latency.range mn mx) =>
      [Event.delayCall ((⌊rands 1 * (mx - mn + 1) + mn⌋ : ℤ) : ℚ), Event.nextCall]

end IndexTs

/-- How many times `next()` was called in a trace. -/
def countNext (t : List Event) : ℕ :=
  t.countP fun e => match e with | Event.nextCall => true | _ => false

/-- Whether an event is a call on the response object. -/
def isResponseCall : Event → Bool
  | Event.statusCall _ => true
  | Event.jsonCall _ => true
  | Event.endCall => true
  | _ => false

/-- Whether the trace contains a synthetic error response (a status call). -/
def hasErrorResponse (t : List Event) : Bool :=
  t.any fun e => match e with | Event.statusCall _ => true | _ => false

/-- Whether the trace contains an injected delay. -/
def hasDelay (t : List Event) : Bool :=
  t.any fun e => match e with | Event.delayCall _ => true | _ => false

/-- All three gates pass: not production, not blocked by the activation
keyword, not blocked by the method filter. -/
def chaosApplies (options : ChaosOptions) (nodeEnv : Option String)
    (req : GenericRequest) : Bool :=
  nodeEnv != some "production" && !activationBlocked options req &&
    !methodBlocked options req

example :
    chaosMiddleware { errorRate := some 1 } none {} (fun _ => 0) =
      [Event.statusCall 500, Event.endCall] := by decide

example :
    chaosMiddleware { latency := some (Latency.fixed 300) } none {} (fun _ => 0) =
      [Event.delayCall 300, Event.nextCall] := by decide

example :
    chaosMiddleware { latency := some (Latency.range 100 200) }
      none {} (fun _ => 0) = [Event.delayCall 100, Event.nextCall] := by
  simp [chaosMiddleware, activationBlocked, methodBlocked]

example :
    chaosMiddleware { errorRate := some 1, activationKeyword := some "chaos" }
      none {} (fun _ => 0) = [Event.nextCall] := by decide

example :
    chaosMiddleware { errorRate := some 1, activationKeyword := some "chaos" }
      none { query := some [("chaos", "true")] } (fun _ => 0) =
      [Event.statusCall 500, Event.endCall] := by decide

/-- Case analysis on the trace of the part_001 handler: it is a plain
pass-through, a status-end error, a status-json error, or a delayed
pass-through. -/
lemma chaosMiddleware_cases (options : ChaosOptions) (nodeEnv : Option String)
    (req : GenericRequest) (rands : ℕ → ℚ) :
    chaosMiddleware options nodeEnv req rands = [Event.nextCall] ∨
    (chaosMiddleware options nodeEnv req rands =
        [Event.statusCall (chaosStatus options), Event.endCall] ∧
      chaosBody options = none) ∨
    (∃ b, chaosMiddleware options nodeEnv req rands =
        [Event.statusCall (chaosStatus options), Event.jsonCall b] ∧
      chaosBody options = some b) ∨
    (∃ d, chaosMiddleware options nodeEnv req rands =
      [Event.delayCall d, Event.nextCall]) := by
  unfold chaosMiddleware
  split_ifs with h1 h2 h3 h4
  · exact Or.inl rfl
  · exact Or.inl rfl
  · exact Or.inl rfl
  · cases hb : chaosBody options with
    | none => exact Or.inr (Or.inl ⟨rfl, rfl⟩)
    | some b => exact Or.inr (Or.inr (Or.inl ⟨b, rfl, rfl⟩))
  · rcases hl : options.latency with _ | (⟨ms⟩ | ⟨mn, mx⟩)
    · exact Or.inl rfl
    · by_cases hm : ms = 0
      · exact Or.inl (by simp [hm])
      · exact Or.inr (Or.inr (Or.inr ⟨ms, by simp [hm]⟩))
    · exact Or.inr (Or.inr (Or.inr ⟨_, rfl⟩))

/-- Unpacking `chaosApplies`. -/
lemma chaosApplies_spec (options : ChaosOptions) (nodeEnv : Option String)
    (req : GenericRequest) (h : chaosApplies options nodeEnv req = true) :
    ¬ nodeEnv = some "production" ∧ activationBlocked options req = false ∧
      methodBlocked options req = false := by
  simp only [chaosApplies, Bool.and_eq_true, bne_iff_ne, ne_eq,
    Bool.not_eq_true'] at h
  exact ⟨h.1.1, h.1.2, h.2⟩

/-- When all three gates pass, the handler reduces to the error draw
followed by the latency block. -/
lemma chaosMiddleware_applies (options : ChaosOptions) (nodeEnv : Option String)
    (req : GenericRequest) (rands : ℕ → ℚ)
    (h : chaosApplies options nodeEnv req = true) :
    chaosMiddleware options nodeEnv req rands =
      if rands 0 < options.errorRate.getD 0 then
        Event.statusCall (chaosStatus options) ::
          (match chaosBody options with
           | some b => [Event.jsonCall b]
           | none => [Event.endCall])
      else
        match options.latency with
        | none => [Event.nextCall]
        | some (Latency.fixed ms) =>
          if ms = 0 then [Event.nextCall]
          else [Event.delayCall ms, Event.nextCall]
        | some (Latency.range mn mx) =>
          [Event.delayCall ((⌊rands 1 * (mx - mn + 1) + mn⌋ : ℤ) : ℚ),
            Event.nextCall] := by
  obtain ⟨h1, h2, h3⟩ := chaosApplies_spec options nodeEnv req h
  unfold chaosMiddleware
  rw [if_neg h1, if_neg (by simp [h2]), if_neg (by simp [h3])]

/-- A trace that contains a delay contains no error response. -/
lemma delay_excludes_error_aux (options : ChaosOptions) (nodeEnv : Option String)
    (req : GenericRequest) (rands : ℕ → ℚ)
    (hd : hasDelay (chaosMiddleware options nodeEnv req rands) = true) :
    hasErrorResponse (chaosMiddleware options nodeEnv req rands) = false := by
  rcases chaosMiddleware_cases options nodeEnv req rands with
    h | ⟨h, -⟩ | ⟨b, h, -⟩ | ⟨d, h⟩ <;> rw [h] <;> rw [h] at hd
  · simp [hasDelay] at hd
  · simp [hasDelay] at hd
  · simp [hasDelay] at hd
  · rfl

/-- C1: every invocation of the part_001 handler either sends a synthetic
error response (a status call followed by the configured JSON body when one
is configured, otherwise an end call, with next never called), or calls
next exactly once with no call on the response object at all. -/
theorem chaos_single_outcome (options : ChaosOptions) (nodeEnv : Option String)
    (req : GenericRequest) (rands : ℕ → ℚ) :
    (∃ s, chaosMiddleware options nodeEnv req rands =
        [Event.statusCall s, Event.endCall] ∧ chaosBody options = none) ∨
    (∃ s b, chaosMiddleware options nodeEnv req rands =
        [Event.statusCall s, Event.jsonCall b] ∧ chaosBody options = some b) ∨
    (countNext (chaosMiddleware options nodeEnv req rands) = 1 ∧
      (chaosMiddleware options nodeEnv req rands).filter isResponseCall = []) := by
  rcases chaosMiddleware_cases options nodeEnv req rands with
    h | ⟨h, hb⟩ | ⟨b, h, hb⟩ | ⟨d, h⟩
  · right; right
    rw [h]
    exact ⟨rfl, rfl⟩
  · left
    exact ⟨chaosStatus options, h, hb⟩
  · right; left
    exact ⟨chaosStatus options, b, h, hb⟩
  · right; right
    rw [h]
    exact ⟨rfl, rfl⟩

/-- C2: with NODE_ENV set to production, both versions of the handler call
next exactly once, inject no delay, and never touch the response object,
whatever the options, request, and samples are. -/
theorem chaos_production_passthrough (options : ChaosOptions)
    (optionsV0 : IndexTs.ChaosOptions) (req : GenericRequest) (rands : ℕ → ℚ) :
    chaosMiddleware options (some "production") req rands = [Event.nextCall] ∧
    IndexTs.chaosMiddleware optionsV0 (some "production") () rands =
      [Event.nextCall] := by
  constructor
  · unfold chaosMiddleware
    rw [if_pos rfl]
  · unfold IndexTs.chaosMiddleware
    rw [if_pos rfl]

/-- C3 counterexample: contrary to the claim, there is no combination of
options (with positive error rate and latency configured), environment,
request, and samples under which one and the same invocation both delays
and sends the synthetic error response: the error branch returns before the
latency block runs. -/
theorem chaos_no_input_gets_both :
    ¬ ∃ (options : ChaosOptions) (nodeEnv : Option String)
        (req : GenericRequest) (rands : ℕ → ℚ),
        0 < options.errorRate.getD 0 ∧ options.latency ≠ none ∧
        hasDelay (chaosMiddleware options nodeEnv req rands) = true ∧
        hasErrorResponse (chaosMiddleware options nodeEnv req rands) = true := by
  rintro ⟨o, e, r, s, -, -, hd, he⟩
  rw [delay_excludes_error_aux o e r s hd] at he
  exact Bool.false_ne_true he

/-- C3 amended: when chaos applies, the handler injects an error or injects
latency but never both: an invocation whose trace contains the artificial
delay contains no synthetic error response. -/
theorem chaos_delay_excludes_error (options : ChaosOptions)
    (nodeEnv : Option String) (req : GenericRequest) (rands : ℕ → ℚ)
    (hd : hasDelay (chaosMiddleware options nodeEnv req rands) = true) :
    hasErrorResponse (chaosMiddleware options nodeEnv req rands) = false :=
  delay_excludes_error_aux options nodeEnv req rands hd

/-- Witness for the amended C3 at a concrete input: a fixed 100 ms latency
and error rate 0, where the delay fires and no error is sent. -/
theorem chaos_delay_excludes_error_witness :
    hasErrorResponse (chaosMiddleware { latency := some (Latency.fixed 100) }
      none {} (fun _ => 0)) = false :=
  chaos_delay_excludes_error { latency := some (Latency.fixed 100) }
    none {} (fun _ => 0) (by decide)

/-- The error decision of the part_001 handler, once all gates pass, is
exactly the comparison of the first sample against the error rate. -/
lemma hasErrorResponse_eq (options : ChaosOptions) (nodeEnv : Option String)
    (req : GenericRequest) (rands : ℕ → ℚ)
    (h : chaosApplies options nodeEnv req = true) :
    hasErrorResponse (chaosMiddleware options nodeEnv req rands) =
      decide (rands 0 < options.errorRate.getD 0) := by
  rw [chaosMiddleware_applies options nodeEnv req rands h]
  by_cases he : rands 0 < options.errorRate.getD 0
  · rw [if_pos he]
    cases chaosBody options <;> simp [hasErrorResponse, he]
  · rw [if_neg he]
    rcases options.latency with _ | (⟨ms⟩ | ⟨mn, mx⟩)
    · simp [hasErrorResponse, he]
    · by_cases hm : ms = 0 <;> simp [hasErrorResponse, he, hm]
    · simp [hasErrorResponse, he]

/-- C4: when the gates pass, an error is injected exactly when the fresh
sample is strictly below the error rate; with the rate omitted or 0 the
error branch is unreachable for every sample in the unit interval, and with
rate 1 it is taken for every such sample. -/
theorem chaos_error_iff_sample_below_rate (options : ChaosOptions)
    (nodeEnv : Option String) (req : GenericRequest) (rands : ℕ → ℚ)
    (h : chaosApplies options nodeEnv req = true) :
    (hasErrorResponse (chaosMiddleware options nodeEnv req rands) =
      decide (rands 0 < options.errorRate.getD 0)) ∧
    ((options.errorRate = none ∨ options.errorRate = some 0) → 0 ≤ rands 0 →
      hasErrorResponse (chaosMiddleware options nodeEnv req rands) = false) ∧
    (options.errorRate = some 1 → rands 0 < 1 →
      hasErrorResponse (chaosMiddleware options nodeEnv req rands) = true) := by
  refine ⟨hasErrorResponse_eq options nodeEnv req rands h, ?_, ?_⟩
  · rintro (hr | hr) h0 <;>
      rw [hasErrorResponse_eq options nodeEnv req rands h] <;>
      rw [hr] <;> simpa using not_lt.mpr h0
  · intro hr h1
    rw [hasErrorResponse_eq options nodeEnv req rands h, hr]
    simpa using h1

/-- Witness for C4: rate 1, first sample 0, gates passing; the error
response is present. -/
theorem chaos_error_iff_sample_below_rate_witness :
    hasErrorResponse (chaosMiddleware { errorRate := some 1 } none {}
      (fun _ => 0)) = true :=
  (chaos_error_iff_sample_below_rate { errorRate := some 1 } none {}
      (fun _ => 0) (by decide)).2.2 rfl (by decide)

/-- C5: when chaos applies and no error is injected, a [min, max] latency
range of integers with min below max yields an integer delay between min
and max inclusive for every latency sample in the unit interval, and a
fixed nonzero latency yields exactly that delay. -/
theorem chaos_latency_bounds (options : ChaosOptions) (nodeEnv : Option String)
    (req : GenericRequest) (rands : ℕ → ℚ)
    (happ : chaosApplies options nodeEnv req = true)
    (hnoerr : ¬ rands 0 < options.errorRate.getD 0)
    (h0 : 0 ≤ rands 1) (h1 : rands 1 < 1) :
    (∀ a b : ℤ, options.latency = some (Latency.range (a : ℚ) (b : ℚ)) →
      a ≤ b → ∃ d : ℤ, chaosMiddleware options nodeEnv req rands =
        [Event.delayCall (d : ℚ), Event.nextCall] ∧ a ≤ d ∧ d ≤ b) ∧
    (∀ m : ℚ, options.latency = some (Latency.fixed m) → m ≠ 0 →
      chaosMiddleware options nodeEnv req rands =
        [Event.delayCall m, Event.nextCall]) := by
  rw [chaosMiddleware_applies options nodeEnv req rands happ, if_neg hnoerr]
  constructor
  · intro a b hlat hab
    rw [hlat]
    refine ⟨⌊rands 1 * ((b : ℚ) - (a : ℚ) + 1) + (a : ℚ)⌋, rfl, ?_, ?_⟩
    · apply Int.le_floor.mpr
      have hab2 : (a : ℚ) ≤ (b : ℚ) := by exact_mod_cast hab
      nlinarith
    · have hab2 : (a : ℚ) ≤ (b : ℚ) := by exact_mod_cast hab
      have hlt : ⌊rands 1 * ((b : ℚ) - (a : ℚ) + 1) + (a : ℚ)⌋ < b + 1 := by
        apply Int.floor_lt.mpr
        push_cast
        nlinarith
      omega
  · intro m hlat hm
    rw [hlat]
    simp [hm]

/-- Witness for C5 at a concrete input: range [2, 5], latency sample 0, so
the delay is an integer between 2 and 5. -/
theorem chaos_latency_bounds_witness :
    ∃ d : ℤ, chaosMiddleware { latency := some (Latency.range 2 5) } none {}
        (fun _ => 0) = [Event.delayCall (d : ℚ), Event.nextCall] ∧
      2 ≤ d ∧ d ≤ 5 :=
  (chaos_latency_bounds { latency := some (Latency.range 2 5) } none {}
      (fun _ => 0) (by decide) (by decide) (by decide) (by decide)).1
    2 5 rfl (by decide)

/-- C6: with a non-empty activation keyword configured, a request whose
query is absent or does not map the keyword to the string "true" is passed
straight to next, with no delay and no error, whatever the other options
and the samples are. -/
theorem chaos_activation_gate (options : ChaosOptions) (nodeEnv : Option String)
    (req : GenericRequest) (rands : ℕ → ℚ) (kw : String)
    (hkw : options.activationKeyword = some kw) (hne : kw ≠ "")
    (hq : ∀ q, req.query = some q → queryLookup q kw ≠ some "true") :
    chaosMiddleware options nodeEnv req rands = [Event.nextCall] := by
  by_cases hp : nodeEnv = some "production"
  · unfold chaosMiddleware
    rw [if_pos hp]
  · have hblock : activationBlocked options req = true := by
      unfold activationBlocked
      rw [hkw]
      cases hq2 : req.query with
      | none => simp [hne]
      | some q => simp [hne, hq q hq2]
    unfold chaosMiddleware
    rw [if_neg hp, if_pos hblock]

/-- Witness for C6: keyword "chaos" configured, query absent, error rate 1;
the request still passes through untouched. -/
theorem chaos_activation_gate_witness :
    chaosMiddleware { errorRate := some 1, activationKeyword := some "chaos" }
      none {} (fun _ => 0) = [Event.nextCall] :=
  chaos_activation_gate
    { errorRate := some 1, activationKeyword := some "chaos" }
    none {} (fun _ => 0) "chaos" rfl (by decide) (fun q hq => by cases hq)

/-- C7: with a non-empty methods list configured, a request with no method,
or whose uppercased method is not among the uppercased configured methods,
is passed straight to next with no delay and no error. -/
theorem chaos_method_gate (options : ChaosOptions) (nodeEnv : Option String)
    (req : GenericRequest) (rands : ℕ → ℚ) (l : List String)
    (hl : options.methods = some l) (hne : l ≠ [])
    (hmeth : ∀ m, req.method = some m →
      toUpperCase m ∉ l.map toUpperCase) :
    chaosMiddleware options nodeEnv req rands = [Event.nextCall] := by
  by_cases hp : nodeEnv = some "production"
  · unfold chaosMiddleware
    rw [if_pos hp]
  · by_cases ha : activationBlocked options req = true
    · unfold chaosMiddleware
      rw [if_neg hp, if_pos ha]
    · have hblock : methodBlocked options req = true := by
        unfold methodBlocked
        rw [hl]
        have hlen : decide (0 < l.length) = true := by
          simp [List.length_pos, hne]
        cases hm2 : req.method with
        | none => simp [hlen]
        | some m => simp [hlen, hmeth m hm2]
      unfold chaosMiddleware
      rw [if_neg hp, if_neg ha, if_pos hblock]

/-- Witness for C7: only POST configured, request method get (lowercase),
error rate 1; the request still passes through untouched. -/
theorem chaos_method_gate_witness :
    chaosMiddleware { errorRate := some 1, methods := some ["POST"] }
      none { method := some "get" } (fun _ => 0) = [Event.nextCall] :=
  chaos_method_gate { errorRate := some 1, methods := some ["POST"] }
    none { method := some "get" } (fun _ => 0) ["POST"] rfl (by decide)
    (fun m hm => by cases hm; decide)

/-- C8: the handler keeps no state: its trace is a function of the options,
NODE_ENV, the request method and query, and the first two samples of the
invocation alone, so invocations with identical such inputs behave
identically. -/
theorem chaos_stateless_deterministic (options : ChaosOptions)
    (nodeEnv : Option String) (req₁ req₂ : GenericRequest)
    (rands₁ rands₂ : ℕ → ℚ)
    (hm : req₁.method = req₂.method) (hq : req₁.query = req₂.query)
    (h0 : rands₁ 0 = rands₂ 0) (h1 : rands₁ 1 = rands₂ 1) :
    chaosMiddleware options nodeEnv req₁ rands₁ =
      chaosMiddleware options nodeEnv req₂ rands₂ := by
  have hreq : req₁ = req₂ := by
    cases req₁
    cases req₂
    simp_all
  subst hreq
  unfold chaosMiddleware
  rw [h0, h1]

/-- Witness for C8: two sample streams that agree on the first two draws
but differ later give the same trace. -/
theorem chaos_stateless_deterministic_witness :
    chaosMiddleware { errorRate := some 1, latency := some (Latency.fixed 20) }
        none {} (fun _ => 0) =
      chaosMiddleware { errorRate := some 1, latency := some (Latency.fixed 20) }
        none {} (fun n => if n ≤ 1 then 0 else 7) :=
  chaos_stateless_deterministic
    { errorRate := some 1, latency := some (Latency.fixed 20) }
    none {} {} (fun _ => 0) (fun n => if n ≤ 1 then 0 else 7)
    rfl rfl (by decide) (by decide)

/-- C9: with error, methods, and activationKeyword absent, the part_001
handler and the index.ts handler are observationally equivalent: same
environment, request, and samples give the same trace of next calls,
response calls, and delays. -/
theorem chaos_refines_index_ts (lat : Option Latency) (er : Option ℚ)
    (nodeEnv : Option String) (req : GenericRequest) (rands : ℕ → ℚ) :
    chaosMiddleware
        { latency := lat, errorRate := er, error := none, methods := none,
          activationKeyword := none } nodeEnv req rands =
      IndexTs.chaosMiddleware { latency := lat, errorRate := er }
        nodeEnv () rands := rfl

/-- C10: an empty methods array does not filter at all: the handler behaves
exactly as if methods had been omitted, for every request and every sample
stream. -/
theorem chaos_empty_methods_no_filter (options : ChaosOptions)
    (nodeEnv : Option String) (req : GenericRequest) (rands : ℕ → ℚ) :
    chaosMiddleware { options with methods := some [] } nodeEnv req rands =
      chaosMiddleware { options with methods := none } nodeEnv req rands := rfl
